import Mathlib

/-!
Verification of the ifthar-management persistence backend
(document store with backup rotation, update feed, photo attachment store).

The embedding models the MongoDB server variant (`src/unnamed/part_000`),
which both the filesystem variant (`src/server.js`) and the spec describe
at the same abstract level: a key→JSON document store (`getDoc`/`setDoc`),
a backup collection with timestamped entries and oldest-first eviction
(`createBackup`), restore by filename, an update feed stored under the
`updates` key, and a photo store with a local-uploads tier and a GridFS
tier.
-/

/-- JSON values as stored in the document store.  The server treats the
payloads as opaque blobs; the only operations it performs on them are
storage, structural copy, and JavaScript truthiness tests. -/
inductive Json where
  | null
  | bool (b : Bool)
  | num (n : Int)
  | str (s : String)
  | arr (elems : List Json)
  | obj (fields : List (String × Json))

/-- JavaScript truthiness (`!v` in the source negates this).  `null`,
`false`, `0` and `""` are falsy; every array and object is truthy.
(`NaN` and `undefined` do not occur as stored document values: `getDoc`
returns `null` for an absent document.) -/
def Json.truthy : Json → Bool
  | .null => false
  | .bool b => b
  | .num n => !(n == 0)
  | .str s => !(s == "")
  | .arr _ => true
  | .obj _ => true


/-- One document of the `backups` collection.  `mongoId` models the `_id`
MongoDB assigns at `insertOne` (fresh, never reused); eviction deletes by
`_id`.  `settings` / `appdata` hold the snapshots taken by `createBackup`
(`Json.null` when the corresponding document was absent, exactly as
`getDoc` returns). -/
structure Backup where
  mongoId : Nat
  filename : String
  settings : Json
  appdata : Json
  created : Nat

/-- One update record of the feed (`POST /api/updates` shape): server-assigned
`id` and `timestamp`, defaulted `staff`/`message`/`type`/`day`, and a nullable
photo reference (`/uploads/<filename>`). -/
structure UpdateRecord where
  id : String
  staff : String
  message : String
  type : String
  day : Int
  photo : Option String
  timestamp : String
deriving DecidableEq, Repr

/-- The server's persistent state.

* `store` — the `store` collection: assoc list key ↦ document (`settings`,
  `appdata`); at most one entry per key in reachable states.
* `backups` — the `backups` collection in insertion order, with
  `nextBackupId` the next fresh `_id`.
* `updates` — the document under the `updates` key of the store, held in
  typed form (it is only ever read and written through the feed handlers,
  which treat it as an array of update records; `none` = absent).
* `localUploads` — filenames present in the local uploads directory
  (written by multer, served first by `GET /uploads/:filename`).
* `gridfs` — filenames present in the GridFS `photos` bucket. -/
structure SrvState where
  store : List (String × Json)
  backups : List Backup
  nextBackupId : Nat
  updates : Option (List UpdateRecord)
  localUploads : List String
  gridfs : List String

/-- Model of `db.collection('store').findOne({_key: key})`: first match in the list. -/
def lookupStore (st : List (String × Json)) (key : String) : Option Json :=
  (st.find? (fun p => decide (p.1 = key))).map (·.2)

/-- Model of `getDoc(key)`: `doc ? doc.data : null`. -/
def getDoc (s : SrvState) (key : String) : Json :=
  (lookupStore s.store key).getD Json.null

/-- Model of `updateOne({_key: key}, {$set: {...}}, {upsert: true})` on the assoc
list: replace the first binding of `key`, or append a new one. -/
def setStore (st : List (String × Json)) (key : String) (v : Json) :
    List (String × Json) :=
  match st with
  | [] => [(key, v)]
  | p :: rest =>
    if p.1 = key then (key, v) :: rest else p :: setStore rest key v

/-- Model of `setDoc(key, data)`. -/
def setDoc (s : SrvState) (key : String) (v : Json) : SrvState :=
  { s with store := setStore s.store key v }

/-- The retention bound `MAX_BACKUPS = 20`. -/
def MAX_BACKUPS : Nat := 20

/-- The `backup-${ts}.json` filename.  The source encodes the ISO timestamp
with `:`/`.` replaced by `-`; here time is an abstract `Nat` counter and the
encoding is its decimal form (deterministic and injective, like the
source's).  The MongoDB variant never orders by filename — eviction and
listing sort on the `created` field. -/
def backupFilename (now : Nat) : String :=
  "backup-" ++ toString now ++ ".json"

/-- The document `createBackup` inserts into the `backups` collection. -/
def mkBackup (s : SrvState) (now : Nat) : Backup :=
  { mongoId := s.nextBackupId
    filename := backupFilename now
    settings := getDoc s "settings"
    appdata := getDoc s "appdata"
    created := now }

/-- Insert `b` into a list sorted by ascending `created`. -/
def insertByCreated (b : Backup) : List Backup → List Backup
  | [] => [b]
  | c :: rest =>
    if b.created ≤ c.created then b :: c :: rest else c :: insertByCreated b rest

/-- Model of `find().sort({created: 1})`: the collection sorted by ascending
`created` (insertion sort; ties are broken arbitrarily by MongoDB, and all
reachable states have distinct `created` values). -/
def sortByCreated : List Backup → List Backup
  | [] => []
  | b :: rest => insertByCreated b (sortByCreated rest)

/-- The retention step of `createBackup`: if `count > MAX_BACKUPS`, fetch
the `count - MAX_BACKUPS` oldest backups (sorted by `created` ascending)
and `deleteMany` them by `_id`. -/
def rotateBackups (bs : List Backup) : List Backup :=
  if bs.length > MAX_BACKUPS then
    let oldestIds := ((sortByCreated bs).take (bs.length - MAX_BACKUPS)).map
      (·.mongoId)
    bs.filter (fun b => decide (¬ b.mongoId ∈ oldestIds))
  else bs

/-- Model of `createBackup()` at abstract time `now`: read both documents, skip when
both are JS-falsy, otherwise insert a snapshot and enforce retention. -/
def createBackup (now : Nat) (s : SrvState) : SrvState :=
  let settingsData := getDoc s "settings"
  let appData := getDoc s "appdata"
  if !settingsData.truthy && !appData.truthy then s
  else
    { s with
      backups := rotateBackups (s.backups ++ [mkBackup s now])
      nextBackupId := s.nextBackupId + 1 }

/-- Model of `find().sort({created: -1})`, as used by `GET /api/backups`. -/
def sortByCreatedDesc (bs : List Backup) : List Backup :=
  (sortByCreated bs).reverse

/-- Model of `GET /api/backups`: all backups, newest first.  (The route then maps
each entry to a `{filename, size, created}` summary; the claims are about
which backup entries are returned.) -/
def listBackups (s : SrvState) : List Backup :=
  sortByCreatedDesc s.backups

/-- Model of `POST /api/settings`: `createBackup(); setDoc('settings', body)`. -/
def postSettings (now : Nat) (body : Json) (s : SrvState) : SrvState :=
  setDoc (createBackup now s) "settings" body

/-- Model of `POST /api/data`: `createBackup(); setDoc('appdata', body)`. -/
def postData (now : Nat) (body : Json) (s : SrvState) : SrvState :=
  setDoc (createBackup now s) "appdata" body

/-- Outcome of `POST /api/backups/restore/:filename`. -/
inductive RestoreResult where
  | ok
  | invalidName
  | notFound
deriving DecidableEq, Repr

/-- The filename validation of the restore route:
`filename.startsWith('backup-') && filename.endsWith('.json')`
(computed on the character sequence). -/
def validBackupName (f : String) : Bool :=
  "backup-".toList.isPrefixOf f.toList && ".json".toList.isSuffixOf f.toList

/-- Model of `POST /api/backups/restore/:filename`: validate the name (400), look
up the backup (404), then write back each snapshot that is JS-truthy. -/
def restore (s : SrvState) (fname : String) : RestoreResult × SrvState :=
  if !(validBackupName fname) then (.invalidName, s)
  else
    match s.backups.find? (fun b => decide (b.filename = fname)) with
    | none => (.notFound, s)
    | some b =>
      let s1 := if b.settings.truthy then setDoc s "settings" b.settings else s
      let s2 := if b.appdata.truthy then setDoc s1 "appdata" b.appdata else s1
      (.ok, s2)

/-- Model of `(await getDoc('updates')) || []`: the feed as the handlers read it
(`GET /api/updates` responds with exactly this list). -/
def feedList (s : SrvState) : List UpdateRecord :=
  s.updates.getD []

/-- Model of `v || d` on an optional string form field: `undefined` and `''` are
falsy and fall through to the default. -/
def jsOrDefault (v : Option String) (d : String) : String :=
  match v with
  | none => d
  | some s => if s = "" then d else s

/-- Longest leading decimal-digit prefix; `none` when there is none
(JS `NaN`). -/
def parseDigits : List Char → Option Nat → Option Nat
  | [], acc => acc
  | c :: rest, acc =>
    if c.isDigit then
      parseDigits rest (some (acc.getD 0 * 10 + (c.toNat - '0'.toNat)))
    else acc

/-- Model of `parseInt(req.body.day)` on an optional form field: missing ⇒ `NaN`;
otherwise skip leading whitespace, read an optional sign and a decimal
digit prefix (`none` = `NaN`; the `0x` radix-prefix branch of JS
`parseInt` is never reached by the day field and is not modelled). -/
def jsParseInt (v : Option String) : Option Int :=
  match v with
  | none => none
  | some s =>
    match s.toList.dropWhile Char.isWhitespace with
    | '-' :: rest => (parseDigits rest none).map (fun n => -(n : Int))
    | '+' :: rest => (parseDigits rest none).map (fun n => (n : Int))
    | cs => (parseDigits cs none).map (fun n => (n : Int))

/-- Model of `parseInt(req.body.day) || 0`: `NaN` (and `0` itself) collapse to 0. -/
def jsDayField (v : Option String) : Int :=
  (jsParseInt v).getD 0

/-- The optional-string form fields of `POST /api/updates` (`req.body`);
`none` models a missing field. -/
structure InsertBody where
  staff : Option String
  message : Option String
  type : Option String
  day : Option String

/-- Replace the first occurrence of `pat` in the character sequence by
`repl` (leftmost match). -/
def replaceFirstAux (pat repl : List Char) : List Char → List Char
  | [] => []
  | c :: rest =>
    if pat.isPrefixOf (c :: rest) then repl ++ (c :: rest).drop pat.length
    else c :: replaceFirstAux pat repl rest

/-- JS `String.prototype.replace` with a string pattern: replace the
first occurrence only (no occurrence leaves the string unchanged). -/
def jsReplaceFirst (s pat repl : String) : String :=
  ⟨replaceFirstAux pat.toList repl.toList s.toList⟩

/-- Model of `GET /uploads/:filename`: serve the local file if present, else look
in GridFS, else 404 (`NotFound`). -/
def retrievePhoto (s : SrvState) (fname : String) : Bool :=
  if s.localUploads.contains fname then true
  else s.gridfs.contains fname

/-- Model of `deleteFromGridFS(filename)`: delete every GridFS file with that name. -/
def deleteFromGridFS (s : SrvState) (fname : String) : SrvState :=
  { s with gridfs := s.gridfs.filter (fun g => decide (¬ g = fname)) }

/-- Model of `POST /api/updates` at server-generated `newId`/`ts`.  `file` is the
multer result (`req.file`, `some fname` when a photo was uploaded — multer
has then already written the file into the local uploads directory, which
the definition records first).  `gridfsOk` injects the outcome of
`uploadToGridFS`: on failure the `catch` only logs, the record keeps the
photo reference already assigned, and the GridFS bucket is unchanged.
Returns the new state and the created record (echoed in the response). -/
def insertUpdate (s : SrvState) (body : InsertBody) (file : Option String)
    (gridfsOk : Bool) (newId ts : String) : SrvState × UpdateRecord :=
  let s0 := match file with
    | some fn => { s with localUploads := fn :: s.localUploads }
    | none => s
  let base : UpdateRecord :=
    { id := newId
      staff := jsOrDefault body.staff "Anonymous"
      message := jsOrDefault body.message ""
      type := jsOrDefault body.type "general"
      day := jsDayField body.day
      photo := none
      timestamp := ts }
  match file with
  | none =>
    ({ s0 with updates := some (base :: feedList s0) }, base)
  | some fn =>
    let r := { base with photo := some ("/uploads/" ++ fn) }
    let s1 := if gridfsOk then { s0 with gridfs := fn :: s0.gridfs } else s0
    ({ s1 with updates := some (r :: feedList s1) }, r)

/-- Model of `DELETE /api/updates/:id`.  `gridfsDelOk` injects the outcome of the
`deleteFromGridFS` call (its failure is swallowed by `try {...} catch {}`).
The local uploads file is unlinked when present; the record (if found) is
filtered out of the feed, which is written back; the response is
`{ok: true}` on every path of this handler. -/
def deleteUpdate (s : SrvState) (idArg : String) (gridfsDelOk : Bool) :
    SrvState :=
  let updates := feedList s
  let found := updates.find? (fun u => decide (u.id = idArg))
  let s1 := match found with
    | some u =>
      match u.photo with
      | some ref =>
        let fn := jsReplaceFirst ref "/uploads/" ""
        let sa := { s with
          localUploads := s.localUploads.filter (fun g => decide (¬ g = fn)) }
        if gridfsDelOk then deleteFromGridFS sa fn else sa
      | none => s
    | none => s
  { s1 with updates := some (updates.filter (fun u => decide (¬ u.id = idArg))) }

/-- Fault injection for the steps inside `createBackup`'s `try` block:
which of the awaited storage operations reject.  (`getDoc` has its own
internal `catch` and yields `null` on a read error, so read faults do not
throw; the other three reject into `createBackup`'s `catch`.) -/
structure BackupFaults where
  readSettingsFails : Bool
  readAppdataFails : Bool
  insertFails : Bool
  countFails : Bool
  evictFails : Bool
deriving DecidableEq, Repr

/-- Model of `getDoc` under a possible read fault: its own `catch` logs and
returns `null`. -/
def getDocF (fail : Bool) (s : SrvState) (key : String) : Json :=
  if fail then Json.null else getDoc s key

/-- The `try` block of `createBackup` under fault injection.  A `.error`
result carries the state as of the throw point (mutations already applied
persist — e.g. an insert that succeeded before a failing eviction). -/
def createBackupTry (f : BackupFaults) (now : Nat) (s : SrvState) :
    Except SrvState SrvState :=
  let settingsData := getDocF f.readSettingsFails s "settings"
  let appData := getDocF f.readAppdataFails s "appdata"
  if !settingsData.truthy && !appData.truthy then .ok s
  else if f.insertFails then .error s
  else
    let s1 := { s with
      backups := s.backups ++
        [{ mongoId := s.nextBackupId
           filename := backupFilename now
           settings := settingsData
           appdata := appData
           created := now }]
      nextBackupId := s.nextBackupId + 1 }
    if f.countFails then .error s1
    else if f.evictFails then .error s1
    else .ok { s1 with backups := rotateBackups s1.backups }

/-- Model of `createBackup` with its surrounding `catch (e) { console.error(...) }`:
every rejection from the `try` block is swallowed and the function
returns normally. -/
def createBackupF (f : BackupFaults) (now : Nat) (s : SrvState) : SrvState :=
  match createBackupTry f now s with
  | .ok s' => s'
  | .error s' => s'

/-- Model of `POST /api/settings` with backup-fault injection: the backup runs
first (faults swallowed), then the document write. -/
def postSettingsF (f : BackupFaults) (now : Nat) (body : Json)
    (s : SrvState) : SrvState :=
  setDoc (createBackupF f now s) "settings" body

/-- Model of `POST /api/settings` applied to a list of `(time, body)` writes in
order. -/
def applyPostSettings (s : SrvState) (ws : List (Nat × Json)) : SrvState :=
  ws.foldl (fun st w => postSettings w.1 w.2 st) s

/-! ## Basic lemmas about the document store -/

theorem lookupStore_set_same (st : List (String × Json)) (k : String)
    (v : Json) : lookupStore (setStore st k v) k = some v := by
  induction st with
  | nil => simp [setStore, lookupStore]
  | cons p rest ih =>
    simp only [setStore]
    by_cases h : p.1 = k
    · rw [if_pos h]
      simp only [lookupStore]
      rw [List.find?_cons_of_pos _ (by simp)]
      rfl
    · rw [if_neg h]
      simp only [lookupStore] at ih ⊢
      rw [List.find?_cons_of_neg _ (by simp [h])]
      exact ih

theorem lookupStore_set_other (st : List (String × Json)) (k k' : String)
    (v : Json) (h : k' ≠ k) :
    lookupStore (setStore st k v) k' = lookupStore st k' := by
  induction st with
  | nil =>
    simp only [setStore, lookupStore]
    rw [List.find?_cons_of_neg _ (by simp [Ne.symm h])]
  | cons p rest ih =>
    simp only [setStore]
    by_cases hp : p.1 = k
    · rw [if_pos hp]
      simp only [lookupStore]
      rw [List.find?_cons_of_neg _ (by simp [Ne.symm h]),
        List.find?_cons_of_neg _ (by simp [hp, Ne.symm h])]
    · rw [if_neg hp]
      simp only [lookupStore] at ih ⊢
      by_cases hq : p.1 = k'
      · rw [List.find?_cons_of_pos _ (by simp [hq]),
          List.find?_cons_of_pos _ (by simp [hq])]
      · rw [List.find?_cons_of_neg _ (by simp [hq]),
          List.find?_cons_of_neg _ (by simp [hq])]
        exact ih

theorem getDoc_setDoc_same (s : SrvState) (k : String) (v : Json) :
    getDoc (setDoc s k v) k = v := by
  simp [getDoc, setDoc, lookupStore_set_same]

theorem getDoc_setDoc_other (s : SrvState) (k k' : String) (v : Json)
    (h : k' ≠ k) : getDoc (setDoc s k v) k' = getDoc s k' := by
  simp [getDoc, setDoc, lookupStore_set_other _ _ _ _ h]

theorem createBackup_store (now : Nat) (s : SrvState) :
    (createBackup now s).store = s.store := by
  by_cases hc :
      (!(getDoc s "settings").truthy && !(getDoc s "appdata").truthy) = true
  · simp [createBackup, hc]
  · simp [createBackup, hc]

theorem Json.truthy_ne_null {j : Json} (h : j.truthy = true) :
    ¬ j = Json.null := by
  intro he
  subst he
  simp [Json.truthy] at h

/-- The all-absent initial state (the fresh database). -/
def emptyState : SrvState :=
  { store := []
    backups := []
    nextBackupId := 0
    updates := none
    localUploads := []
    gridfs := [] }

/-! ## C8: last-write-wins for the settings document -/

/-- C8: for every finite sequence of writes to the `settings` document
(each write being the full `POST /api/settings` route, backup included),
reading `settings` after the last write returns exactly the last written
value — each `setDoc` replaces the document wholesale, with no merge. -/
theorem settings_last_write_wins (s : SrvState) (ws : List (Nat × Json))
    (w : Nat × Json) :
    getDoc (applyPostSettings s (ws ++ [w])) "settings" = w.2 := by
  unfold applyPostSettings
  rw [List.foldl_append]
  simp [postSettings, getDoc_setDoc_same]

/-! ## C4: `createBackup` on an absent document pair -/

/-- C4: when both the `settings` and the `appdata` documents are absent,
`createBackup` is a no-op (the whole state, in particular the backup
store, is unchanged); and in general no backup entity is ever created
with both snapshots empty (null). -/
theorem createBackup_noop_when_absent (s : SrvState) (now : Nat)
    (hs : getDoc s "settings" = Json.null)
    (ha : getDoc s "appdata" = Json.null) :
    createBackup now s = s ∧
      ∀ (s' : SrvState) (now' : Nat), ∀ b ∈ (createBackup now' s').backups,
        b ∈ s'.backups ∨ ¬(b.settings = Json.null ∧ b.appdata = Json.null) := by
  constructor
  · unfold createBackup
    rw [hs, ha]
    simp [Json.truthy]
  · intro s' now' b hb
    by_cases hc :
        (!(getDoc s' "settings").truthy && !(getDoc s' "appdata").truthy) = true
    · rw [show createBackup now' s' = s' by simp [createBackup, hc]] at hb
      exact .inl hb
    · simp only [createBackup, hc, if_false, Bool.false_eq_true] at hb
      have hmem : b ∈ s'.backups ++ [mkBackup s' now'] := by
        unfold rotateBackups at hb
        split at hb
        · exact List.mem_of_mem_filter hb
        · exact hb
      rcases List.mem_append.1 hmem with h | h
      · exact .inl h
      · right
        have hb' : b = mkBackup s' now' := by simpa using h
        subst hb'
        have ht : (getDoc s' "settings").truthy = true ∨
            (getDoc s' "appdata").truthy = true := by
          rcases Bool.not_eq_true _ |>.mp hc |> Bool.and_eq_false_iff.mp with
            h1 | h1
          · exact .inl (by simpa using h1)
          · exact .inr (by simpa using h1)
        rcases ht with ht | ht
        · exact fun hpair => Json.truthy_ne_null ht (by simpa [mkBackup] using hpair.1)
        · exact fun hpair => Json.truthy_ne_null ht (by simpa [mkBackup] using hpair.2)

/-- Witness for C4 at the fresh database and `now = 7`. -/
theorem createBackup_noop_when_absent_witness :
    getDoc emptyState "settings" = Json.null ∧
    getDoc emptyState "appdata" = Json.null ∧
    createBackup 7 emptyState = emptyState :=
  ⟨rfl, rfl, (createBackup_noop_when_absent emptyState 7 rfl rfl).1⟩

/-! ## C5: restore filename validation -/

/-- C5: a restore filename that fails the `backup-*.json` naming check is
rejected with `invalidName` (HTTP 400) and the state — in particular every
document — is unchanged, independently of the backup store's contents (so
before any lookup can matter); a well-formed filename with no matching
backup is rejected with `notFound` (HTTP 404), again with the state
unchanged. -/
theorem restore_rejects_bad_names (s : SrvState) (fname : String) :
    (¬ validBackupName fname = true →
      restore s fname = (.invalidName, s)) ∧
    (validBackupName fname = true →
      s.backups.find? (fun b => decide (b.filename = fname)) = none →
      restore s fname = (.notFound, s)) := by
  constructor
  · intro h
    simp [restore, Bool.not_eq_true _ |>.mp (by simpa using h)]
  · intro hv hn
    simp [restore, hv, hn]

/-- Witness for C5: `"../etc/passwd"` is rejected as invalid and the
well-formed `"backup-1.json"` is rejected as not-found on the fresh
database, both leaving the state unchanged. -/
theorem restore_rejects_bad_names_witness :
    restore emptyState "../etc/passwd" = (.invalidName, emptyState) ∧
    restore emptyState "backup-1.json" = (.notFound, emptyState) :=
  ⟨(restore_rejects_bad_names emptyState "../etc/passwd").1 (by decide),
   (restore_rejects_bad_names emptyState "backup-1.json").2 (by decide) rfl⟩

/-! ## C2: restore is field-wise -/

/-- A state holding one backup whose `appdata` snapshot is null and whose
`settings` snapshot is the (non-null but JS-falsy) value `0`, while the
current settings document is `"current"`. -/
def c2State : SrvState :=
  { store := [("settings", Json.str "current")]
    backups := [{ mongoId := 0
                  filename := "backup-1.json"
                  settings := Json.num 0
                  appdata := Json.null
                  created := 1 }]
    nextBackupId := 1
    updates := none
    localUploads := []
    gridfs := [] }

/-- C2 counterexample: the claim says a backup with null `appdata` and
non-null `settings` has its settings snapshot written on restore.  At
`c2State` the snapshot is the non-null value `0`, yet restore leaves the
settings document at its prior value `"current"` — the route's guard is JS
truthiness (`if (backup.settings)`), not null-ness, so the falsy snapshot
is skipped. -/
theorem restore_fieldwise_counterexample :
    (c2State.backups.map (·.appdata) = [Json.null]) ∧
    (c2State.backups.map (·.settings) = [Json.num 0]) ∧
    ¬ Json.num 0 = Json.null ∧
    (restore c2State "backup-1.json").1 = .ok ∧
    getDoc (restore c2State "backup-1.json").2 "settings" = Json.str "current" ∧
    ¬ getDoc (restore c2State "backup-1.json").2 "settings" = Json.num 0 := by
  refine ⟨rfl, rfl, fun h => Json.noConfusion h, rfl, rfl, fun h => ?_⟩
  rw [show getDoc (restore c2State "backup-1.json").2 "settings"
      = Json.str "current" from rfl] at h
  exact Json.noConfusion h

/-- C2 amended: for every backup whose `appdata` snapshot is null and
whose `settings` snapshot is JS-truthy (every non-null snapshot that can
arise from an HTTP write is a JSON object or array, hence truthy),
`restore` writes the settings document to the snapshotted value, leaves
the current appdata document unchanged, and creates no new backup. -/
theorem restore_fieldwise (s : SrvState) (fname : String) (b : Backup)
    (hval : validBackupName fname = true)
    (hfind : s.backups.find? (fun x => decide (x.filename = fname)) = some b)
    (hset : b.settings.truthy = true)
    (happ : b.appdata = Json.null) :
    restore s fname = (.ok, setDoc s "settings" b.settings) ∧
    getDoc (restore s fname).2 "settings" = b.settings ∧
    getDoc (restore s fname).2 "appdata" = getDoc s "appdata" ∧
    (restore s fname).2.backups = s.backups := by
  have happT : b.appdata.truthy = false := by rw [happ]; rfl
  have hres : restore s fname = (.ok, setDoc s "settings" b.settings) := by
    simp [restore, hval, hfind, hset, happT]
  refine ⟨hres, ?_, ?_, ?_⟩
  · rw [hres]
    exact getDoc_setDoc_same s "settings" b.settings
  · rw [hres]
    exact getDoc_setDoc_other s "settings" "appdata" b.settings (by decide)
  · rw [hres]
    rfl

/-- A state holding one backup with a truthy settings snapshot and a null
appdata snapshot, and a current appdata document to be preserved. -/
def c2GoodState : SrvState :=
  { store := [("appdata", Json.str "keep")]
    backups := [{ mongoId := 0
                  filename := "backup-2.json"
                  settings := Json.obj [("a", Json.num 1)]
                  appdata := Json.null
                  created := 2 }]
    nextBackupId := 1
    updates := none
    localUploads := []
    gridfs := [] }

/-- Witness for the amended C2 at `c2GoodState`. -/
theorem restore_fieldwise_witness :
    validBackupName "backup-2.json" = true ∧
    getDoc (restore c2GoodState "backup-2.json").2 "settings"
      = Json.obj [("a", Json.num 1)] ∧
    getDoc (restore c2GoodState "backup-2.json").2 "appdata"
      = getDoc c2GoodState "appdata" ∧
    (restore c2GoodState "backup-2.json").2.backups = c2GoodState.backups := by
  have h := restore_fieldwise c2GoodState "backup-2.json"
    { mongoId := 0
      filename := "backup-2.json"
      settings := Json.obj [("a", Json.num 1)]
      appdata := Json.null
      created := 2 }
    (by decide) rfl rfl rfl
  exact ⟨by decide, h.2.1, h.2.2.1, h.2.2.2⟩

/-! ## C10: `createBackup` swallows every internal failure -/

/-- C10: every failure of a storage operation inside `createBackup` is
caught and swallowed: under any fault injection the function returns
normally, never touches the documents (so the write that follows starts
from the same store), and a `POST /api/settings` write that runs
`createBackup` first still stores its body. -/
theorem createBackup_swallows_faults (f : BackupFaults) (now : Nat)
    (body : Json) (s : SrvState) :
    (createBackupF f now s).store = s.store ∧
    (createBackupF f now s).updates = s.updates ∧
    getDoc (postSettingsF f now body s) "settings" = body := by
  have hpre : (createBackupF f now s).store = s.store ∧
      (createBackupF f now s).updates = s.updates := by
    by_cases hc : (!(getDocF f.readSettingsFails s "settings").truthy &&
        !(getDocF f.readAppdataFails s "appdata").truthy) = true
    · simp [createBackupF, createBackupTry, hc]
    · by_cases hi : f.insertFails = true
      · simp [createBackupF, createBackupTry, hc, hi]
      · by_cases hcnt : f.countFails = true
        · simp [createBackupF, createBackupTry, hc, hi, hcnt]
        · by_cases he : f.evictFails = true
          · simp [createBackupF, createBackupTry, hc, hi, hcnt, he]
          · simp [createBackupF, createBackupTry, hc, hi, hcnt, he]
  refine ⟨hpre.1, hpre.2, ?_⟩
  unfold postSettingsF
  exact getDoc_setDoc_same _ "settings" body

/-- With no faults injected, the fault-instrumented `createBackup`
coincides with the plain one (sanity link between the two embeddings). -/
theorem createBackupF_no_faults (now : Nat) (s : SrvState) :
    createBackupF ⟨false, false, false, false, false⟩ now s
      = createBackup now s := by
  by_cases hc :
      (!(getDoc s "settings").truthy && !(getDoc s "appdata").truthy) = true
  · simp [createBackupF, createBackupTry, createBackup, getDocF, hc]
  · simp [createBackupF, createBackupTry, createBackup, getDocF, mkBackup, hc]

/-! ## C7: insert defaults and head placement -/

/-- C7: inserting an update with no photo and every optional field empty
or missing yields `staff = "Anonymous"`, `message = ""`,
`type = "general"`, `day = 0`, `photo = null`, the server-assigned id and
timestamp, and the created record becomes element 0 of the feed with all
previously present records preserved after it in their prior order. -/
theorem insert_empty_defaults (s : SrvState) (body : InsertBody)
    (gk : Bool) (newId ts : String)
    (hstaff : body.staff = none ∨ body.staff = some "")
    (hmsg : body.message = none ∨ body.message = some "")
    (htype : body.type = none ∨ body.type = some "")
    (hday : body.day = none ∨ body.day = some "") :
    (insertUpdate s body none gk newId ts).2
      = { id := newId, staff := "Anonymous", message := "", type := "general",
          day := 0, photo := none, timestamp := ts } ∧
    feedList (insertUpdate s body none gk newId ts).1
      = (insertUpdate s body none gk newId ts).2 :: feedList s := by
  constructor
  · rcases hstaff with h1 | h1 <;> rcases hmsg with h2 | h2 <;>
      rcases htype with h3 | h3 <;> rcases hday with h4 | h4 <;>
      simp [insertUpdate, jsOrDefault, jsDayField, jsParseInt, parseDigits,
        h1, h2, h3, h4]
  · simp [insertUpdate, feedList]

/-- Pre-existing feed for the C7 witness. -/
def c7State : SrvState :=
  { emptyState with
    updates := some [{ id := "old1", staff := "A", message := "m",
                       type := "general", day := 3, photo := none,
                       timestamp := "t0" }] }

/-- Witness for C7: an all-empty body inserted into a one-record feed. -/
theorem insert_empty_defaults_witness :
    (insertUpdate c7State ⟨none, some "", some "", none⟩ none true "id9" "t9").2
      = { id := "id9", staff := "Anonymous", message := "", type := "general",
          day := 0, photo := none, timestamp := "t9" } ∧
    feedList (insertUpdate c7State ⟨none, some "", some "", none⟩ none true
        "id9" "t9").1
      = (insertUpdate c7State ⟨none, some "", some "", none⟩ none true
          "id9" "t9").2 :: feedList c7State :=
  insert_empty_defaults c7State ⟨none, some "", some "", none⟩ true "id9" "t9"
    (Or.inl rfl) (Or.inr rfl) (Or.inr rfl) (Or.inl rfl)

/-! ## C9: delete of a missing id is an ok no-op; delete is idempotent -/

/-- C9: deleting an id not present in the feed leaves the feed's record
sequence unchanged (the handler answers `{ok: true}` on this path — the
model has no failing branch for it), and deleting the same id twice gives
the same feed as deleting it once, for any fault outcome of the GridFS
cleanup. -/
theorem deleteById_missing_noop (s : SrvState) (idArg : String) (dk : Bool)
    (h : ∀ u ∈ feedList s, ¬ u.id = idArg) :
    feedList (deleteUpdate s idArg dk) = feedList s ∧
    ∀ (s' : SrvState) (x : String) (d1 d2 : Bool),
      feedList (deleteUpdate (deleteUpdate s' x d1) x d2)
        = feedList (deleteUpdate s' x d1) := by
  have key : ∀ (t : SrvState) (x : String) (d : Bool),
      (∀ u ∈ feedList t, ¬ u.id = x) →
      feedList (deleteUpdate t x d) = feedList t := by
    intro t x d ht
    have hfind : (feedList t).find? (fun u => decide (u.id = x)) = none :=
      List.find?_eq_none.mpr (fun u hu => by simpa using ht u hu)
    have hfilter : (feedList t).filter (fun u => decide (¬ u.id = x))
        = feedList t :=
      List.filter_eq_self.mpr (fun u hu => by simpa using ht u hu)
    simp [deleteUpdate, hfind, feedList, hfilter]
    exact fun a ha => ht a ha
  refine ⟨key s idArg dk h, ?_⟩
  intro s' x d1 d2
  have hfeed1 : feedList (deleteUpdate s' x d1)
      = (feedList s').filter (fun u => decide (¬ u.id = x)) := by
    simp [deleteUpdate, feedList]
  refine key _ x d2 ?_
  intro u hu
  rw [hfeed1] at hu
  simpa using List.of_mem_filter hu

/-- Witness for C9: deleting the absent id `"zz"` from a one-record feed. -/
theorem deleteById_missing_noop_witness :
    feedList (deleteUpdate c7State "zz" true) = feedList c7State :=
  (deleteById_missing_noop c7State "zz" true (by decide)).1

/-! ## C3: insert when GridFS photo storage fails -/

/-- C3 counterexample: the claim says a record created while photo
storage fails has a null photo field.  Inserting `"p.jpg"` with the
GridFS upload failing, the created record's photo field is
`/uploads/p.jpg`, not null: the handler assigns the reference before the
`try { await uploadToGridFS(...) }`, and the `catch` only logs. -/
theorem insert_photo_fail_counterexample :
    (insertUpdate emptyState ⟨none, none, none, none⟩ (some "p.jpg") false
        "id1" "t1").2.photo = some "/uploads/p.jpg" ∧
    ¬ (insertUpdate emptyState ⟨none, none, none, none⟩ (some "p.jpg") false
        "id1" "t1").2.photo = none := by
  exact ⟨rfl, by decide⟩

/-- C3 amended: when photo bytes were supplied and the GridFS storage
operation fails, the insert still succeeds — the record is created and
placed at the head of the feed — with its photo field set to the local
photo reference `/uploads/<filename>` (the multer-saved local file
remains), while the GridFS bucket is left unchanged; the failure never
causes the insert to fail. -/
theorem insert_photo_fail_still_inserts (s : SrvState) (body : InsertBody)
    (fn newId ts : String) :
    feedList (insertUpdate s body (some fn) false newId ts).1
      = (insertUpdate s body (some fn) false newId ts).2 :: feedList s ∧
    (insertUpdate s body (some fn) false newId ts).2.photo
      = some ("/uploads/" ++ fn) ∧
    (insertUpdate s body (some fn) false newId ts).1.gridfs = s.gridfs ∧
    (insertUpdate s body (some fn) false newId ts).1.localUploads
      = fn :: s.localUploads := by
  refine ⟨?_, rfl, rfl, rfl⟩
  simp [insertUpdate, feedList]

/-! ## C6: delete removes the record and its photo blob -/

/-- C6: when the feed's record found for id `X` carries a photo
reference, `deleteById(X)` removes the record from the feed (for either
outcome of the GridFS cleanup — its failure does not block removal) and,
when the cleanup succeeds, the referenced blob is gone from both photo
tiers, so a subsequent retrieve of the photo's filename returns NotFound
(`false`). -/
theorem deleteById_removes_record_and_photo (s : SrvState)
    (idArg ref : String) (u : UpdateRecord)
    (hfind : (feedList s).find? (fun x => decide (x.id = idArg)) = some u)
    (hphoto : u.photo = some ref) :
    (∀ dk : Bool, feedList (deleteUpdate s idArg dk)
        = (feedList s).filter (fun x => decide (¬ x.id = idArg))) ∧
    (∀ dk : Bool, ∀ v ∈ feedList (deleteUpdate s idArg dk), ¬ v.id = idArg) ∧
    retrievePhoto (deleteUpdate s idArg true)
      (jsReplaceFirst ref "/uploads/" "") = false := by
  have hfeed : ∀ dk : Bool, feedList (deleteUpdate s idArg dk)
      = (feedList s).filter (fun x => decide (¬ x.id = idArg)) := by
    intro dk
    simp [deleteUpdate, feedList]
  refine ⟨hfeed, ?_, ?_⟩
  · intro dk v hv
    rw [hfeed dk] at hv
    simpa using List.of_mem_filter hv
  · have hcont : ∀ l : List String,
        (l.filter (fun g => decide (¬ g = jsReplaceFirst ref "/uploads/" ""))).contains
          (jsReplaceFirst ref "/uploads/" "") = false := by
      intro l
      simp only [List.contains, List.elem_eq_mem, decide_eq_false_iff_not]
      intro hmem
      have := List.of_mem_filter hmem
      simp at this
    simp [deleteUpdate, hfind, hphoto, deleteFromGridFS, retrievePhoto, hcont]

/-- A one-record feed whose record owns the photo `a.jpg`, present in
both photo tiers. -/
def c6State : SrvState :=
  { emptyState with
    updates := some [{ id := "u1", staff := "A", message := "m",
                       type := "general", day := 1,
                       photo := some "/uploads/a.jpg", timestamp := "t0" }]
    localUploads := ["a.jpg"]
    gridfs := ["a.jpg"] }

/-- Witness for C6 at `c6State`: the record vanishes from the feed and
the photo `a.jpg` is no longer retrievable. -/
theorem deleteById_removes_record_and_photo_witness :
    feedList (deleteUpdate c6State "u1" true) = [] ∧
    retrievePhoto (deleteUpdate c6State "u1" true)
      (jsReplaceFirst "/uploads/a.jpg" "/uploads/" "") = false := by
  have h := deleteById_removes_record_and_photo c6State "u1" "/uploads/a.jpg"
    { id := "u1", staff := "A", message := "m", type := "general", day := 1,
      photo := some "/uploads/a.jpg", timestamp := "t0" }
    (by decide) rfl
  exact ⟨by rw [h.1 true]; decide, h.2.2⟩

/-! ## C1: backup retention bound and oldest-first eviction -/

theorem insertByCreated_of_le (b : Backup) (bs : List Backup)
    (h : ∀ c ∈ bs, b.created ≤ c.created) : insertByCreated b bs = b :: bs := by
  cases bs with
  | nil => rfl
  | cons c rest =>
    simp only [insertByCreated]
    rw [if_pos (h c (List.mem_cons_self c rest))]

theorem sortByCreated_of_sorted (bs : List Backup)
    (h : bs.Pairwise (fun a b => a.created ≤ b.created)) :
    sortByCreated bs = bs := by
  induction bs with
  | nil => rfl
  | cons b rest ih =>
    have hp := List.pairwise_cons.mp h
    rw [sortByCreated, ih hp.2]
    exact insertByCreated_of_le b rest hp.1

theorem filter_take_ids_eq_drop (bs : List Backup) (k : Nat)
    (hnd : (bs.map (·.mongoId)).Nodup) :
    bs.filter
        (fun b => decide (¬ b.mongoId ∈ (bs.take k).map (·.mongoId)))
      = bs.drop k := by
  have main : ∀ (ids : List Nat) (l1 l2 : List Backup),
      (∀ b ∈ l1, b.mongoId ∈ ids) → (∀ b ∈ l2, ¬ b.mongoId ∈ ids) →
      (l1 ++ l2).filter (fun b => decide (¬ b.mongoId ∈ ids)) = l2 := by
    intro ids l1 l2 h1 h2
    rw [List.filter_append, List.filter_eq_nil_iff.mpr, List.filter_eq_self.mpr,
      List.nil_append]
    · intro b hb
      simpa using h2 b hb
    · intro b hb
      simpa using h1 b hb
  have h1 : ∀ b ∈ bs.take k, b.mongoId ∈ (bs.take k).map (·.mongoId) :=
    fun b hb => List.mem_map_of_mem _ hb
  have h2 : ∀ b ∈ bs.drop k, ¬ b.mongoId ∈ (bs.take k).map (·.mongoId) := by
    intro b hb hmem
    have hnd' :
        ((bs.take k).map (·.mongoId) ++ (bs.drop k).map (·.mongoId)).Nodup := by
      rw [← List.map_append, List.take_append_drop]
      exact hnd
    exact (List.nodup_append.mp hnd').2.2 hmem (List.mem_map_of_mem _ hb)
  calc
    bs.filter (fun b => decide (¬ b.mongoId ∈ (bs.take k).map (·.mongoId)))
        = (bs.take k ++ bs.drop k).filter
            (fun b => decide (¬ b.mongoId ∈ (bs.take k).map (·.mongoId))) := by
          rw [List.take_append_drop]
    _ = bs.drop k := main _ _ _ h1 h2

/-- C1: for a backup store satisfying the run invariants (entries sorted
by strictly increasing creation time, distinct `_id`s below the next
fresh id) and a backup-triggering call (at least one document present,
`now` later than every stored backup), `createBackup` leaves exactly the
at-most-20 most recent of the old-backups-plus-new-snapshot list —
deleting precisely the oldest ones in creation-time order — so the store
holds at most `MAX_BACKUPS` entries, `listBackups` returns exactly those
entries newest-first, and all the invariants are re-established (which
closes the induction over any sequence of backup-triggering writes). -/
theorem backup_rotation_bound (s : SrvState) (now : Nat)
    (hsorted : s.backups.Pairwise (fun a b => a.created < b.created))
    (hfresh : ∀ b ∈ s.backups, b.created < now)
    (hids : (s.backups.map (·.mongoId)).Nodup)
    (hidfresh : ∀ b ∈ s.backups, b.mongoId < s.nextBackupId)
    (hcre : ((getDoc s "settings").truthy || (getDoc s "appdata").truthy)
      = true) :
    (createBackup now s).backups
      = (s.backups ++ [mkBackup s now]).drop
          (s.backups.length + 1 - MAX_BACKUPS) ∧
    (createBackup now s).backups.length ≤ MAX_BACKUPS ∧
    listBackups (createBackup now s) = (createBackup now s).backups.reverse ∧
    (createBackup now s).backups.Pairwise (fun a b => a.created < b.created) ∧
    ((createBackup now s).backups.map (·.mongoId)).Nodup ∧
    (∀ b ∈ (createBackup now s).backups, b.created ≤ now) ∧
    (∀ b ∈ (createBackup now s).backups,
      b.mongoId < (createBackup now s).nextBackupId) := by
  have hcre' : (getDoc s "settings").truthy = true ∨
      (getDoc s "appdata").truthy = true := by simpa using hcre
  have hcond : (!(getDoc s "settings").truthy &&
      !(getDoc s "appdata").truthy) = false := by
    rcases hcre' with h | h <;> simp [h]
  have hsorted' : (s.backups ++ [mkBackup s now]).Pairwise
      (fun a b => a.created < b.created) := by
    rw [List.pairwise_append]
    refine ⟨hsorted, List.pairwise_singleton _ _, ?_⟩
    intro a ha b hb
    rw [List.mem_singleton.mp hb]
    simpa [mkBackup] using hfresh a ha
  have hids' : ((s.backups ++ [mkBackup s now]).map (·.mongoId)).Nodup := by
    rw [List.map_append, List.nodup_append]
    refine ⟨hids, List.nodup_singleton _, ?_⟩
    intro x hx hx2
    rcases List.mem_map.mp hx with ⟨b, hb, rfl⟩
    have hlt := hidfresh b hb
    simp only [List.map_cons, List.map_nil, List.mem_singleton, mkBackup] at hx2
    omega
  have hstate : (createBackup now s).backups
      = rotateBackups (s.backups ++ [mkBackup s now]) := by
    simp [createBackup, hcond]
  have hnext : (createBackup now s).nextBackupId = s.nextBackupId + 1 := by
    simp [createBackup, hcond]
  have hlen' : (s.backups ++ [mkBackup s now]).length
      = s.backups.length + 1 := by simp
  have hrot : rotateBackups (s.backups ++ [mkBackup s now])
      = (s.backups ++ [mkBackup s now]).drop
          ((s.backups ++ [mkBackup s now]).length - MAX_BACKUPS) := by
    unfold rotateBackups
    by_cases hgt : (s.backups ++ [mkBackup s now]).length > MAX_BACKUPS
    · rw [if_pos hgt]
      simp only
      rw [sortByCreated_of_sorted _ (hsorted'.imp le_of_lt)]
      exact filter_take_ids_eq_drop _ _ hids'
    · rw [if_neg hgt]
      have hz : (s.backups ++ [mkBackup s now]).length - MAX_BACKUPS = 0 := by
        omega
      rw [hz, List.drop_zero]
  have main1 : (createBackup now s).backups
      = (s.backups ++ [mkBackup s now]).drop
          (s.backups.length + 1 - MAX_BACKUPS) := by
    rw [hstate, hrot, hlen']
  have hsub : (createBackup now s).backups.Sublist
      (s.backups ++ [mkBackup s now]) := by
    rw [main1]
    exact List.drop_sublist _ _
  have hressorted : (createBackup now s).backups.Pairwise
      (fun a b => a.created < b.created) := hsorted'.sublist hsub
  have hmemres : ∀ b ∈ (createBackup now s).backups,
      b ∈ s.backups ∨ b = mkBackup s now := by
    intro b hb
    rcases List.mem_append.mp (hsub.subset hb) with h | h
    · exact .inl h
    · exact .inr (List.mem_singleton.mp h)
  refine ⟨main1, ?_, ?_, hressorted, ?_, ?_, ?_⟩
  · rw [main1, List.length_drop, hlen']
    omega
  · show sortByCreatedDesc (createBackup now s).backups
      = (createBackup now s).backups.reverse
    unfold sortByCreatedDesc
    rw [sortByCreated_of_sorted _ (hressorted.imp le_of_lt)]
  · exact List.Nodup.sublist (hsub.map (·.mongoId)) hids'
  · intro b hb
    rcases hmemres b hb with h | h
    · exact le_of_lt (hfresh b h)
    · rw [h]
      simp [mkBackup]
  · intro b hb
    rw [hnext]
    rcases hmemres b hb with h | h
    · have := hidfresh b h
      omega
    · rw [h]
      simp [mkBackup]

/-- A 20-entry backup store (the bound is tight) with both documents
present, for the C1 witness. -/
def c1State : SrvState :=
  { store := [("settings", Json.obj [("x", Json.num 1)]),
              ("appdata", Json.arr [Json.num 2])]
    backups := (List.range 20).map (fun i =>
      { mongoId := i
        filename := backupFilename i
        settings := Json.obj []
        appdata := Json.null
        created := i })
    nextBackupId := 20
    updates := none
    localUploads := []
    gridfs := [] }

/-- Witness for C1 at `c1State` and `now = 100`: the 21st snapshot evicts
exactly the oldest entry and the bound holds. -/
theorem backup_rotation_bound_witness :
    (createBackup 100 c1State).backups
      = (c1State.backups ++ [mkBackup c1State 100]).drop 1 ∧
    (createBackup 100 c1State).backups.length ≤ MAX_BACKUPS ∧
    listBackups (createBackup 100 c1State)
      = (createBackup 100 c1State).backups.reverse := by
  have h := backup_rotation_bound c1State 100
    (by decide) (by decide) (by decide) (by decide) (by decide)
  exact ⟨h.1, h.2.1, h.2.2.1⟩

